import Mathlib

/-!
# Verification of the growth-mindset app state-management core

Shallow embedding of the core of `src/growth_mindset.py`: the persistence
layer (`load_data`), the metrics engine (`calculate_streak`,
`get_weekly_progress`), identity (`authenticate_user`) and the
journal-entry delete operation, together with proofs of the testable
properties stated in the spec.

Calendar dates are modelled as integers (day numbers): `datetime.date`
values are totally ordered, two dates are consecutive exactly when they
differ by one day, and ISO formatting is an order-isomorphism, so every
comparison the source performs on dates is captured by `Int`.
-/

namespace GrowthMindset

/-! ## Metrics engine: calculate_streak (src/growth_mindset.py lines 64-80) -/

/-- The loop of `calculate_streak` (lines 72-79): walks the dates in the
given order carrying the cursor `current_date` and the accumulator
`streak`; a date equal to the cursor is skipped (`continue`), a date
exactly one day earlier increments the streak and moves the cursor, and
anything else breaks out of the loop returning the accumulator. -/
def streakLoop : Int → Nat → List Int → Nat
  | _, streak, [] => streak
  | current, streak, d :: rest =>
    if d = current then streakLoop current streak rest
    else if current - d = 1 then streakLoop d (streak + 1) rest
    else streak

/-- Function `calculate_streak(dates)` (lines 64-80): returns 0 on an empty list,
otherwise sorts the dates ascending, sets `streak = 1` and
`current_date = today`, and runs the loop over the reversed (descending)
sorted list. `today` is the external `datetime.date.today()` value,
passed here as an explicit parameter. -/
def calculate_streak (today : Int) (dates : List Int) : Nat :=
  if dates = [] then 0
  else streakLoop today 1 ((dates.insertionSort (· ≤ ·)).reverse)

/-! ## Metrics engine: get_weekly_progress (lines 82-97) -/

/-- A completed-challenge record as appended in `daily_challenge`
(lines 168-172): a date, the challenge text, and the owning username. -/
structure ChallengeCompletion where
  date : Int
  challenge : String
  user : String
deriving DecidableEq

/-- The `defaultdict(int)` used by `get_weekly_progress`, modelled as an
insertion-ordered association list from date to count. -/
def Progress := List (Int × Nat)

/-- Lookup in the association list: `Some` count if the key is present,
`none` if the key was never inserted. -/
def lookupProgress : List (Int × Nat) → Int → Option Nat
  | [], _ => none
  | (k, v) :: rest, d => if k = d then some v else lookupProgress rest d

/-- Statement `progress[date] += 1` on a `defaultdict(int)` (line 95): increments
the count at an existing key, or inserts the key with count 1 (default
0, then incremented) at the end in insertion order. -/
def bumpProgress : List (Int × Nat) → Int → List (Int × Nat)
  | [], d => [(d, 1)]
  | (k, v) :: rest, d =>
    if k = d then (k, v + 1) :: rest else (k, v) :: bumpProgress rest d

/-- The initialization loop of `get_weekly_progress` (lines 89-91):
`progress[today - i] = 0` for `i` in `range(7)`, inserting the seven keys
`today`, `today - 1`, ..., `today - 6` in that order, each with count 0. -/
def initWeek (today : Int) : List (Int × Nat) :=
  (List.range 7).map (fun i => (today - i, 0))

/-- Function `get_weekly_progress()` (lines 82-97): initializes the last 7
calendar days to zero, then increments the count at the date of each completion.
The field `completed_challenges` of the document and the current date are passed
as explicit parameters in place of `load_data()` and
`datetime.date.today()`. -/
def get_weekly_progress (today : Int) (challenges : List ChallengeCompletion) :
    List (Int × Nat) :=
  challenges.foldl (fun p c => bumpProgress p c.date) (initWeek today)

/-- The number of completions in `cs` bearing the date `d`. -/
def countDate (cs : List ChallengeCompletion) (d : Int) : Nat :=
  (cs.filter (fun c => c.date = d)).length

/-! ## Data model and persistence (lines 28-61) -/

/-- A journal entry as appended in `reflection_journal` (lines 205-213). -/
structure JournalEntry where
  id : String
  date : Int
  reflection : String
  lessons : String
  mood : String
  tags : List String
  user : String
deriving DecidableEq

/-- A community post as appended in `community_wall` (lines 246-252). -/
structure CommunityPost where
  id : String
  date : Int
  content : String
  author : String
  likes : Nat
deriving DecidableEq

/-- A user record: `{"joined": <ISO date>}` (line 110). -/
structure UserRecord where
  joined : Int
deriving DecidableEq

/-- The root document persisted in `app_data.json` (lines 52-57): the
four collections, with `users` an insertion-ordered mapping from
username to user record. -/
structure Document where
  journal_entries : List JournalEntry
  completed_challenges : List ChallengeCompletion
  community_posts : List CommunityPost
  users : List (String × UserRecord)
deriving DecidableEq

/-- The freshly-initialized empty document built by the `except` branch
of `load_data` (lines 52-57). -/
def emptyDocument : Document :=
  { journal_entries := []
    completed_challenges := []
    community_posts := []
    users := [] }

/-- The possible outcomes of opening and JSON-decoding `app_data.json`:
the file is missing (`FileNotFoundError`), its content is not valid JSON
(`JSONDecodeError`), or it decodes to a document. -/
inductive ReadResult where
  | missing
  | malformed
  | ok (d : Document)
deriving DecidableEq

/-- Function `load_data()` (lines 47-57): returns the decoded document, and on
`FileNotFoundError` or `JSONDecodeError` recovers by returning the empty
document. Totality of this function models the absence of any other
exception path. -/
def load_data : ReadResult → Document
  | .missing => emptyDocument
  | .malformed => emptyDocument
  | .ok d => d

/-! ## Identity: authenticate_user (lines 100-119) -/

/-- Username lookup in the insertion-ordered `users` mapping. -/
def lookupUser : List (String × UserRecord) → String → Option UserRecord
  | [], _ => none
  | (k, v) :: rest, u => if k = u then some v else lookupUser rest u

/-- The state change of `authenticate_user` on the `users` mapping
(lines 109-111): if the username is absent, insert a fresh record with
`joined` set to today; if present, leave the mapping untouched. -/
def authenticate_user (users : List (String × UserRecord)) (username : String)
    (today : Int) : List (String × UserRecord) :=
  match lookupUser users username with
  | some _ => users
  | none => users ++ [(username, { joined := today })]

/-! ## Journal-entry deletion (lines 233-236) -/

/-- The delete action of `reflection_journal` (line 234):
`data["journal_entries"] = [e for e in data["journal_entries"] if e["id"] != entry["id"]]`. -/
def deleteJournalEntry (entries : List JournalEntry) (eid : String) :
    List JournalEntry :=
  entries.filter (fun e => e.id ≠ eid)

/-! ## Spec-side definition for the streak refinement claim -/

/-- Length of a run of consecutive (one-day-apart) days continuing
downward from `prev` through a descending list. -/
def runLen : Int → List Int → Nat
  | _, [] => 0
  | prev, d :: rest => if d = prev - 1 then 1 + runLen d rest else 0

/-- Stated from the words of the spec, for comparison with `calculate_streak`:
"the length of the last contiguous run of consecutive days found walking
backward from the most recent supplied date" — sort descending, count the
maximal consecutive prefix starting at the most recent date. -/
def specLastContiguousRun (dates : List Int) : Nat :=
  match (dates.insertionSort (· ≤ ·)).reverse with
  | [] => 0
  | d :: rest => 1 + runLen d rest

/-! ## Helper lemmas about the streak loop -/

/-- The loop never returns less than the accumulator it starts with. -/
theorem streakLoop_le (l : List Int) :
    ∀ current streak, streak ≤ streakLoop current streak l := by
  induction l with
  | nil => intro current streak; simp [streakLoop]
  | cons d rest ih =>
    intro current streak
    simp only [streakLoop]
    by_cases h1 : d = current
    · simpa [h1] using ih current streak
    · by_cases h2 : current - d = 1
      · simp only [if_neg h1, if_pos h2]
        exact le_trans (Nat.le_succ streak) (ih d (streak + 1))
      · simp [h1, h2]

/-- Hitting a date that is neither the cursor nor one day before it
returns the accumulator unchanged. -/
theorem streakLoop_break (current : Int) (streak : Nat) (d : Int)
    (rest : List Int) (h1 : d ≠ current) (h2 : current - d ≠ 1) :
    streakLoop current streak (d :: rest) = streak := by
  simp only [streakLoop, if_neg h1, if_neg h2]

theorem insertionSort_reverse_three (a : Int) :
    ((List.insertionSort (· ≤ ·) [a, a - 1, a - 2]).reverse : List Int) =
      [a, a - 1, a - 2] := by
  have h1 : ¬(a - 1 ≤ a - 2) := by omega
  have h2 : ¬(a ≤ a - 2) := by omega
  have h3 : ¬(a ≤ a - 1) := by omega
  simp only [List.insertionSort, List.orderedInsert, if_neg h1, if_neg h2,
    if_neg h3]
  rfl

theorem insertionSort_reverse_gap (a : Int) :
    ((List.insertionSort (· ≤ ·) [a, a - 2]).reverse : List Int) =
      [a, a - 2] := by
  have h2 : ¬(a ≤ a - 2) := by omega
  simp only [List.insertionSort, List.orderedInsert, if_neg h2]
  rfl

/-! ## Claims about calculate_streak -/

/-- C1: for a date list containing exactly one date, equal to today,
`calculate_streak` returns 1 — the date equal to today is skipped by the
`continue` branch and never increments the streak counter. -/
theorem streak_today_singleton (today : Int) :
    calculate_streak today [today] = 1 := by
  simp [calculate_streak, List.insertionSort, List.orderedInsert, streakLoop]

/-- C3: for a date list consisting of today, yesterday and the day
before yesterday, `calculate_streak` returns 3. -/
theorem streak_three_consecutive (today : Int) :
    calculate_streak today [today, today - 1, today - 2] = 3 := by
  rw [calculate_streak, if_neg (by simp), insertionSort_reverse_three]
  simp only [streakLoop, if_pos rfl]
  rw [if_neg (by omega : ¬(today - 1 = today)),
    if_pos (by omega : today - (today - 1) = 1),
    if_neg (by omega : ¬(today - 2 = today - 1)),
    if_pos (by omega : today - 1 - (today - 2) = 1)]
  simp

/-- C4: for a date list consisting of today and the date two days before
today, `calculate_streak` returns 1: after skipping today, the scan meets
a gap greater than one day and stops, returning the accumulated count
(second conjunct: the loop returns the accumulator unchanged at the
first date that is neither the cursor nor exactly one day before it). -/
theorem streak_gap_breaks (today : Int) :
    calculate_streak today [today, today - 2] = 1 ∧
    ∀ (current : Int) (streak : Nat) (d : Int) (rest : List Int),
      d ≠ current → current - d ≠ 1 →
      streakLoop current streak (d :: rest) = streak := by
  constructor
  · rw [calculate_streak, if_neg (by simp), insertionSort_reverse_gap]
    simp only [streakLoop, if_pos rfl]
    rw [if_neg (by omega : ¬(today - 2 = today)),
      if_neg (by omega : ¬(today - (today - 2) = 1))]
    simp
  · exact fun current streak d rest h1 h2 => streakLoop_break current streak d rest h1 h2

/-- Witness for C4 at concrete inputs. -/
theorem streak_gap_breaks_witness :
    calculate_streak 0 [0, 0 - 2] = 1 ∧ streakLoop 0 5 [7, 3] = 5 :=
  ⟨(streak_gap_breaks 0).1,
    (streak_gap_breaks 0).2 0 5 7 [3] (by decide) (by decide)⟩

/-- C10: `calculate_streak` on a non-empty list returns at least 1, even
when no supplied date equals today; in particular a list containing only
the date of yesterday returns 2, because the counter starts at 1 before
any date is matched and the yesterday match increments it. -/
theorem streak_nonempty_pos (today : Int) (dates : List Int)
    (hne : dates ≠ []) :
    1 ≤ calculate_streak today dates ∧
    calculate_streak today [today - 1] = 2 := by
  constructor
  · rw [calculate_streak, if_neg hne]
    exact streakLoop_le _ today 1
  · rw [calculate_streak, if_neg (by simp)]
    simp only [List.insertionSort, List.orderedInsert, List.reverse_cons,
      List.reverse_nil, List.nil_append, streakLoop]
    rw [if_neg (by omega : ¬(today - 1 = today)),
      if_pos (by omega : today - (today - 1) = 1)]

/-- Witness for C10 at concrete inputs. -/
theorem streak_nonempty_pos_witness :
    ([(5 : Int)] ≠ []) ∧ 1 ≤ calculate_streak 0 [5] ∧
    calculate_streak 0 [0 - 1] = 2 :=
  ⟨by decide, (streak_nonempty_pos 0 [5] (by decide)).1,
    (streak_nonempty_pos 0 [5] (by decide)).2⟩

/-- C2 fails on the code: the input `[-3, -2]` with today = 0 contains
neither today nor yesterday, the last contiguous run of consecutive days
walking backward from the most recent supplied date has length 2, yet
`calculate_streak` returns 1, not 2. -/
theorem streak_run_counterexample :
    (0 : Int) ∉ [(-3 : Int), -2] ∧ (0 - 1 : Int) ∉ [(-3 : Int), -2] ∧
    specLastContiguousRun [-3, -2] = 2 ∧
    calculate_streak 0 [-3, -2] = 1 ∧
    calculate_streak 0 [-3, -2] ≠ specLastContiguousRun [-3, -2] := by
  refine ⟨by decide, by decide, by decide, by decide, by decide⟩

/-- C2 amended: for every non-empty date list that contains neither
today nor yesterday, `calculate_streak` returns 1 (not the length of the
last contiguous run): the scan starts with the counter already at 1,
meets the most recent date first, and since that date is neither today
nor one day before today it breaks immediately. -/
theorem streak_no_today_no_yesterday (today : Int) (dates : List Int)
    (hne : dates ≠ []) (ht : today ∉ dates) (hy : today - 1 ∉ dates) :
    calculate_streak today dates = 1 := by
  rw [calculate_streak, if_neg hne]
  obtain ⟨d, rest, hd⟩ :
      ∃ d rest, (dates.insertionSort (· ≤ ·)).reverse = d :: rest := by
    cases h : (dates.insertionSort (· ≤ ·)).reverse with
    | nil =>
      exfalso
      apply hne
      have := congrArg List.length h
      simpa [List.length_insertionSort, List.length_eq_zero] using this
    | cons d rest => exact ⟨d, rest, rfl⟩
  have hmem : d ∈ dates := by
    have : d ∈ (dates.insertionSort (· ≤ ·)).reverse := by
      rw [hd]; exact List.mem_cons_self d rest
    rw [List.mem_reverse, List.mem_insertionSort] at this
    exact this
  rw [hd]
  exact streakLoop_break today 1 d rest
    (fun h => ht (h ▸ hmem))
    (fun h => hy (by rw [show today - 1 = d by omega]; exact hmem))

/-- Witness for the amended C2 at concrete inputs. -/
theorem streak_no_today_no_yesterday_witness :
    ([(5 : Int)] ≠ []) ∧ (0 : Int) ∉ [(5 : Int)] ∧
    (0 - 1 : Int) ∉ [(5 : Int)] ∧ calculate_streak 0 [5] = 1 :=
  ⟨by decide, by decide, by decide,
    streak_no_today_no_yesterday 0 [5] (by decide) (by decide) (by decide)⟩

/-! ## Claims about the store -/

/-- C5: when the persisted storage file is absent, or its content fails
to parse, `load_data` returns a freshly-initialized empty document whose
four collections are all empty. The recovery is total: `load_data` is a
function into `Document`, so no exception reaches the caller. -/
theorem load_data_recovers :
    load_data .missing = emptyDocument ∧
    load_data .malformed = emptyDocument ∧
    emptyDocument.journal_entries = [] ∧
    emptyDocument.completed_challenges = [] ∧
    emptyDocument.community_posts = [] ∧
    emptyDocument.users = [] :=
  ⟨rfl, rfl, rfl, rfl, rfl, rfl⟩

/-! ## Claims about get_weekly_progress -/

/-- C6: with no completed challenges, the weekly progress has exactly 7
keys — today and the 6 prior calendar days — each mapped to 0. -/
theorem weekly_progress_empty (today : Int) :
    get_weekly_progress today [] =
      [(today, 0), (today - 1, 0), (today - 2, 0), (today - 3, 0),
        (today - 4, 0), (today - 5, 0), (today - 6, 0)] ∧
    (get_weekly_progress today []).length = 7 := by
  have h : get_weekly_progress today [] =
      [(today, 0), (today - 1, 0), (today - 2, 0), (today - 3, 0),
        (today - 4, 0), (today - 5, 0), (today - 6, 0)] := by
    show initWeek today = _
    rw [initWeek, show List.range 7 = [0, 1, 2, 3, 4, 5, 6] from rfl]
    norm_num
  exact ⟨h, by rw [h]; rfl⟩

theorem countDate_cons (c : ChallengeCompletion)
    (cs : List ChallengeCompletion) (d : Int) :
    countDate (c :: cs) d =
      (if c.date = d then 1 else 0) + countDate cs d := by
  by_cases h : c.date = d <;>
    simp [countDate, List.filter_cons, h, Nat.add_comm]

theorem lookupProgress_bump (p : List (Int × Nat)) (e d : Int) :
    lookupProgress (bumpProgress p e) d =
      if e = d then some ((lookupProgress p d).getD 0 + 1)
      else lookupProgress p d := by
  induction p with
  | nil =>
    by_cases h : e = d <;> simp [bumpProgress, lookupProgress, h]
  | cons kv rest ih =>
    obtain ⟨k, v⟩ := kv
    by_cases hk : k = e
    · subst hk
      by_cases hd : k = d <;> simp [bumpProgress, lookupProgress, hd]
    · by_cases hd : k = d
      · subst hd
        have hed : ¬(e = k) := fun h => hk h.symm
        simp [bumpProgress, lookupProgress, hk, hed]
      · simp [bumpProgress, lookupProgress, hk, hd, ih]

theorem lookupProgress_fold (cs : List ChallengeCompletion)
    (p : List (Int × Nat)) (d : Int) :
    lookupProgress (cs.foldl (fun q c => bumpProgress q c.date) p) d =
      if 0 < countDate cs d ∨ (lookupProgress p d).isSome then
        some ((lookupProgress p d).getD 0 + countDate cs d)
      else none := by
  induction cs generalizing p with
  | nil =>
    cases h : lookupProgress p d <;> simp [countDate, h]
  | cons c rest ih =>
    rw [List.foldl_cons, ih, lookupProgress_bump, countDate_cons]
    by_cases hc : c.date = d
    · simp only [if_pos hc]
      cases h : lookupProgress p d <;> (simp [h]; try omega)
    · simp only [if_neg hc]
      cases h : lookupProgress p d <;> simp [h]

theorem lookupProgress_initWeek (today d : Int) :
    lookupProgress (initWeek today) d =
      if today - 6 ≤ d ∧ d ≤ today then some 0 else none := by
  rw [initWeek, show List.range 7 = [0, 1, 2, 3, 4, 5, 6] from rfl]
  simp only [List.map, lookupProgress]
  push_cast
  split_ifs <;> first | rfl | omega

/-- C7: the weekly-progress lookup at any date `d` is the number of
completions bearing the date `d` whenever `d` lies in the 7-day window or
at least one completion bears it (so duplicates on one date accumulate,
initialized dates with no completion stay 0, and out-of-window dates are
added as new keys rather than discarded); a date outside the window with
no completion is absent. -/
theorem weekly_progress_counts (today d : Int)
    (cs : List ChallengeCompletion) :
    lookupProgress (get_weekly_progress today cs) d =
      if today - 6 ≤ d ∧ d ≤ today ∨ 0 < countDate cs d then
        some (countDate cs d)
      else none := by
  rw [get_weekly_progress, lookupProgress_fold, lookupProgress_initWeek]
  by_cases hw : today - 6 ≤ d ∧ d ≤ today
  · rw [if_pos hw, if_pos (Or.inl hw)]
    simp
  · rw [if_neg hw]
    by_cases hc : 0 < countDate cs d
    · rw [if_pos (Or.inl hc :
        0 < countDate cs d ∨ (none : Option Nat).isSome = true)]
      rw [if_pos (Or.inr hc)]
      simp
    · rw [if_neg (show
        ¬(0 < countDate cs d ∨ (none : Option Nat).isSome = true) from
          fun h => h.elim hc (by simp)),
        if_neg (show ¬(today - 6 ≤ d ∧ d ≤ today ∨ 0 < countDate cs d) from
          fun h => h.elim hw hc)]

/-! ## Claims about authenticate_user -/

theorem lookupUser_append_self (users : List (String × UserRecord))
    (u : String) (r : UserRecord) (h : lookupUser users u = none) :
    lookupUser (users ++ [(u, r)]) u = some r := by
  induction users with
  | nil => simp [lookupUser]
  | cons kv rest ih =>
    obtain ⟨k, v⟩ := kv
    by_cases hk : k = u
    · simp [lookupUser, hk] at h
    · simp only [lookupUser, if_neg hk] at h
      simpa [lookupUser, hk] using ih h

/-- C8: authenticating twice with the same username is idempotent on the
users mapping — the second login finds the username present and changes
nothing, so the joined-date written at first login is never overwritten. -/
theorem authenticate_user_idempotent (users : List (String × UserRecord))
    (u : String) (t₁ t₂ : Int) :
    authenticate_user (authenticate_user users u t₁) u t₂ =
      authenticate_user users u t₁ ∧
    lookupUser (authenticate_user (authenticate_user users u t₁) u t₂) u =
      lookupUser (authenticate_user users u t₁) u := by
  have h : authenticate_user (authenticate_user users u t₁) u t₂ =
      authenticate_user users u t₁ := by
    cases h1 : lookupUser users u with
    | some r =>
      have : authenticate_user users u t₁ = users := by
        rw [authenticate_user, h1]
      rw [this, authenticate_user, h1]
    | none =>
      have h2 : authenticate_user users u t₁ =
          users ++ [(u, { joined := t₁ })] := by
        rw [authenticate_user, h1]
      rw [h2, authenticate_user, lookupUser_append_self users u _ h1]
  exact ⟨h, by rw [h]⟩

/-! ## Claims about journal-entry deletion -/

theorem filter_ne_eq_erase (entries : List JournalEntry) (eid : String)
    (e : JournalEntry)
    (hids : (entries.map (fun x => x.id)).Nodup)
    (he : e ∈ entries) (heid : e.id = eid) :
    entries.filter (fun x => x.id ≠ eid) = entries.erase e := by
  induction entries with
  | nil => cases he
  | cons a rest ih =>
    rw [List.map_cons, List.nodup_cons] at hids
    obtain ⟨ha, hrest⟩ := hids
    rcases List.mem_cons.mp he with rfl | hmem
    · rw [List.filter_cons_of_neg (by simp [heid]), List.erase_cons_head]
      apply List.filter_eq_self.mpr
      intro x hx
      simp only [ne_eq, decide_eq_true_eq]
      intro hxe
      exact ha (by rw [heid, ← hxe]; exact List.mem_map_of_mem _ hx)
    · have hane : a.id ≠ eid := by
        intro hae
        exact ha (by rw [hae, ← heid]; exact List.mem_map_of_mem _ hmem)
      have haee : ¬(a == e) := by
        simp only [beq_iff_eq]
        intro hae
        exact hane (by rw [hae, heid])
      rw [List.filter_cons_of_pos (by simp [hane]),
        List.erase_cons_tail haee, ih hrest hmem]

/-- C9: when journal-entry ids are unique, deleting by id removes
exactly the entry bearing that id: the result is a sublist of the
original (every kept entry is unchanged and relative order preserved),
deleting an id with no matching entry returns the list unchanged, and
deleting a present id yields the original list with that single entry
erased; no entry with the deleted id survives. -/
theorem delete_journal_entry_exact (entries : List JournalEntry)
    (eid : String) (hids : (entries.map (fun e => e.id)).Nodup) :
    (deleteJournalEntry entries eid).Sublist entries ∧
    ((∀ e ∈ entries, e.id ≠ eid) → deleteJournalEntry entries eid = entries) ∧
    (∀ e ∈ entries, e.id = eid →
      deleteJournalEntry entries eid = entries.erase e) ∧
    (∀ e ∈ deleteJournalEntry entries eid, e.id ≠ eid) := by
  refine ⟨List.filter_sublist entries, ?_, ?_, ?_⟩
  · intro h
    apply List.filter_eq_self.mpr
    intro e hee
    simpa using h e hee
  · intro e he heid
    exact filter_ne_eq_erase entries eid e hids he heid
  · intro e he
    have := List.of_mem_filter he
    simpa using this

/-- Witness for C9 at concrete inputs: two entries with distinct ids,
deleting the first. -/
theorem delete_journal_entry_exact_witness :
    (([⟨"a", 0, "r1", "l1", "m1", [], "u"⟩,
       ⟨"b", 1, "r2", "l2", "m2", [], "u"⟩] :
        List JournalEntry).map (fun e => e.id)).Nodup ∧
    (deleteJournalEntry
      [⟨"a", 0, "r1", "l1", "m1", [], "u"⟩,
       ⟨"b", 1, "r2", "l2", "m2", [], "u"⟩] "a").Sublist
      [⟨"a", 0, "r1", "l1", "m1", [], "u"⟩,
       ⟨"b", 1, "r2", "l2", "m2", [], "u"⟩] :=
  ⟨by decide,
    (delete_journal_entry_exact
      [⟨"a", 0, "r1", "l1", "m1", [], "u"⟩,
       ⟨"b", 1, "r2", "l2", "m2", [], "u"⟩] "a" (by decide)).1⟩

end GrowthMindset
